import Mathlib

/-!
# Formal model of the zmfh resolver

A shallow embedding of `src/zmfh/resolver/resolve.py` and
`src/zmfh/runtime/origins_cache.py`.

The resolver's external collaborators (policy oracle, CPython spec finder,
fingerprint verifier, spec factory, candidate index, filesystem) live outside
the shown sources; they enter the model as components of an `Env` record of
abstract functions, exactly at the call surface `resolve` uses.  Mutable
process-wide stores (resolution cache, observed-origin ledger, the index
memo generation) are threaded as an explicit `RState`.  Fallible filesystem
checks that the source wraps in `try/except` are modelled with `Option Bool`
(`none` = the check raised); the `none` branch follows the `except` handler.
`resolve` additionally reports effect counters (`scans` = number of
`get_candidates` consultations, `cacheReads`/`cacheWrites` = number of
resolution-cache get / put-or-drop operations).
-/

namespace Zmfh

/-- Opaque fingerprint values (`verify_candidate`'s change-detection tuple). -/
abbrev Fp := Nat

/-- Opaque loadable-unit descriptors (`make_spec`'s `ModuleSpec`). -/
abbrev ModSpec := Nat

/-- Model of `zmfh.registry.scan.Candidate`: kind is "module" or "package". -/
structure Candidate where
  kind : String
  path : String
  package_dir : Option String := none
deriving DecidableEq, Repr, Inhabited

/-- Model of `zmfh.registry.cache.Cached` (imported as `CacheEntry`). -/
structure CacheEntry where
  candidate : Candidate
  fp : Option Fp
deriving DecidableEq, Repr

/-- Model of `zmfh.registry.cache.Observed`. -/
structure Observed where
  candidate : Candidate
deriving DecidableEq, Repr

/-- Model of `zmfh.policy.model.Policy`, restricted to the fields `resolve` reads. -/
structure Policy where
  roots : List String
  cache_enabled : Bool
  raise_on_deleted : Bool
deriving DecidableEq, Repr

/-- Result of `zmfh.policy.decision.decide`. -/
structure Decision where
  handle : Bool
  managed : Bool
deriving DecidableEq, Repr

/-- A CPython `ModuleSpec` as seen by `_observe_python_spec`: only its
`origin` attribute is consulted (`none` models a missing/non-string origin). -/
structure PySpec where
  origin : Option String
deriving DecidableEq, Repr

/-- The resolution outcome variants: `Resolved`, `Deleted`, or the
`UNHANDLED` sentinel. -/
inductive Outcome where
  | Resolved (fullname : String) (candidate : Candidate) (spec : ModSpec)
      (managed : Bool)
  | Deleted (fullname : String) (last_known_paths : List String)
      (managed : Bool)
  | Unhandled
deriving DecidableEq, Repr

/-- Association-list lookup (Python `dict.get`). -/
def alookup {α : Type} (m : List (String × α)) (k : String) : Option α :=
  match m with
  | [] => none
  | (k', v) :: t => if k' = k then some v else alookup t k

/-- Association-list removal (Python `dict.pop` / cache drop). -/
def aerase {α : Type} (m : List (String × α)) (k : String) :
    List (String × α) :=
  m.filter (fun p => p.1 ≠ k)

/-- Association-list insert/overwrite (Python `dict.__setitem__`). -/
def aput {α : Type} (m : List (String × α)) (k : String) (v : α) :
    List (String × α) :=
  (k, v) :: aerase m k

/-- The process-wide mutable stores `resolve` touches: the resolution cache,
the observed-origin records, and the candidate-index generation (bumped by
`invalidate_index`, so `get_candidates` at a new generation is a fresh scan). -/
structure RState where
  cache : List (String × CacheEntry)
  observed : List (String × Observed)
  indexGen : Nat
deriving DecidableEq, Repr

/-- External collaborators of `resolve`, at exactly its call surface. -/
structure Env where
  /-- Model of `zmfh.resolver.keyspace.is_supported_fullname`. -/
  is_supported_fullname : String → Bool
  /-- Model of `zmfh.policy.decision.decide`. -/
  decide : String → Policy → Decision
  /-- Model of `zmfh.resolver.fallback.python_find_spec`, the host mechanism. -/
  python_find_spec : String → Option (List String) → Option PySpec
  /-- Model of `zmfh.resolver.verify.verify_candidate`. -/
  verify_candidate : Candidate → Bool × Option Fp
  /-- Model of `zmfh.resolver.spec_factory.make_spec`. -/
  make_spec : String → Candidate → Option ModSpec
  /-- Model of `get_index(root, exclude_dirs, max_files).get_candidates(fullname)`,
  indexed by the memo generation (first argument). -/
  get_candidates : Nat → String → List String → Nat → String → List Candidate
  /-- Model of `os.path.exists`; `none` models the call raising. -/
  fsexists : String → Option Bool
  /-- Model of `os.path.abspath`. -/
  normAbs : String → String
  /-- Model of `os.path.normcase`. -/
  normCase : String → String
  /-- Model of `os.path.dirname`. -/
  dirname : String → String
  /-- Model of `os.path.isabs`, used only to state absoluteness of outputs. -/
  isAbs : String → Bool

/-- The value of `os.sep` on the modelled (POSIX) host. -/
def osSep : String := "/"

/-- Python `str.startswith`, at code-point granularity. -/
def strStartsWith (s pre : String) : Bool := pre.data.isPrefixOf s.data

/-- Python `str.endswith`, at code-point granularity. -/
def strEndsWith (s suf : String) : Bool := suf.data.isSuffixOf s.data

/-- Model of `_norm_abs`. -/
def _norm_abs (env : Env) (p : String) : String := env.normAbs p

/-- Model of `_roots`: managed roots (absolute, and case-normalized for comparison). -/
def _rootsOf (env : Env) (policy : Policy) (root : String) :
    List String × List String :=
  let roots := if policy.roots = [] then [root] else policy.roots
  let kept := roots.filter (fun r => r ≠ "")
  (kept.map (_norm_abs env), kept.map (fun r => env.normCase (_norm_abs env r)))

/-- Model of `_is_under_any`. -/
def _is_under_any (env : Env) (path_abs : String) (roots_cmp : List String) :
    Bool :=
  let p := env.normCase path_abs
  roots_cmp.any (fun r => p == r || strStartsWith p (r ++ osSep))

/-- Model of `_observe_candidate`: remember that `fullname` resolved to `cand` when it
lies under the managed roots.  The source wraps this in `try/except: return`;
every operation it performs is total in the model, so no failure branch
remains. -/
def _observe_candidate (env : Env) (fullname : String) (cand : Candidate)
    (roots_cmp : List String) (st : RState) : RState :=
  let p := _norm_abs env cand.path
  if _is_under_any env p roots_cmp then
    { st with observed := aput st.observed fullname ⟨cand⟩ }
  else st

/-- Model of `_observe_python_spec`: if CPython resolved under a managed root, record
the origin. -/
def _observe_python_spec (env : Env) (fullname : String) (spec : PySpec)
    (roots_cmp : List String) (st : RState) : RState :=
  match spec.origin with
  | none => st
  | some origin =>
    if origin = "" then st
    else if origin = "built-in" ∨ origin = "frozen" then st
    else
      let origin_abs := _norm_abs env origin
      if _is_under_any env origin_abs roots_cmp then
        let cand : Candidate :=
          if strEndsWith origin_abs (osSep ++ "__init__.py") then
            { kind := "package", path := origin_abs,
              package_dir := some (env.dirname origin_abs) }
          else { kind := "module", path := origin_abs }
        { st with observed := aput st.observed fullname ⟨cand⟩ }
      else st

/-- Model of `_deleted_paths`: last-known paths under the managed roots that are now
missing.  A hint whose existence check raises (`fsexists = none`) is skipped,
per the source's `except Exception: continue` / `pass`. -/
def _deleted_paths (env : Env) (fullname : String) (roots_cmp : List String)
    (missing_hints : List String) (st : RState) : List String :=
  let fromHints := missing_hints.filterMap (fun p =>
    let ap := _norm_abs env p
    if _is_under_any env ap roots_cmp ∧ env.fsexists ap = some false then
      some ap
    else none)
  let fromObs :=
    match alookup st.observed fullname with
    | none => []
    | some obs =>
      let ap := _norm_abs env obs.candidate.path
      if _is_under_any env ap roots_cmp ∧ env.fsexists ap = some false then
        [ap]
      else []
  List.insertionSort (· ≤ ·) (fromHints ++ fromObs).dedup

/-- The value `resolve` returns in the model: the outcome plus the updated
stores and effect counters. -/
structure RResult where
  outcome : Outcome
  state : RState
  scans : Nat
  cacheReads : Nat
  cacheWrites : Nat
deriving DecidableEq, Repr

/-- Lines 239-247 of `resolve`: build the spec, cache on success, observe,
return `Resolved`; a failed build is `UNHANDLED`. -/
def finishResolve (env : Env) (fullname : String) (policy : Policy)
    (managed : Bool) (roots_cmp : List String) (picked : Candidate)
    (fp : Option Fp) (st : RState) (scans : Nat) : RResult :=
  match env.make_spec fullname picked with
  | none => ⟨.Unhandled, st, scans, 0, 0⟩
  | some s =>
    let stw :=
      if policy.cache_enabled then
        { st with cache := aput st.cache fullname ⟨picked, fp⟩ }
      else st
    let w := if policy.cache_enabled then 1 else 0
    let st2 := _observe_candidate env fullname picked roots_cmp stw
    ⟨.Resolved fullname picked s managed, st2, scans, 0, w⟩

/-- Lines 200-247 of `resolve`: the root scan, ambiguity handling, the
verify-and-retry-once loop, deletion diagnosis, and the final build. -/
def resolveScan (env : Env) (fullname root : String) (policy : Policy)
    (excl : List String) (maxf : Nat) (managed : Bool)
    (roots_cmp : List String) (missing_hints : List String)
    (st : RState) : RResult :=
  match env.get_candidates st.indexGen root excl maxf fullname with
  | [] =>
    if policy.raise_on_deleted then
      let vanished := _deleted_paths env fullname roots_cmp missing_hints st
      if vanished ≠ [] then
        ⟨.Deleted fullname vanished managed, st, 1, 0, 0⟩
      else ⟨.Unhandled, st, 1, 0, 0⟩
    else ⟨.Unhandled, st, 1, 0, 0⟩
  | [picked] =>
    let (ok, fp) := env.verify_candidate picked
    if ok then finishResolve env fullname policy managed roots_cmp picked fp st 1
    else
      let st1 := { st with indexGen := st.indexGen + 1 }
      match env.get_candidates st1.indexGen root excl maxf fullname with
      | [] =>
        if policy.raise_on_deleted then
          let vanished :=
            _deleted_paths env fullname roots_cmp missing_hints st1
          if vanished ≠ [] then
            ⟨.Deleted fullname vanished managed, st1, 2, 0, 0⟩
          else ⟨.Unhandled, st1, 2, 0, 0⟩
        else ⟨.Unhandled, st1, 2, 0, 0⟩
      | [p2] =>
        let (ok2, fp2) := env.verify_candidate p2
        if ok2 then
          finishResolve env fullname policy managed roots_cmp p2 fp2 st1 2
        else if policy.raise_on_deleted then
          let vanished :=
            _deleted_paths env fullname roots_cmp
              (missing_hints ++ [p2.path]) st1
          if vanished ≠ [] then
            ⟨.Deleted fullname vanished managed, st1, 2, 0, 0⟩
          else ⟨.Unhandled, st1, 2, 0, 0⟩
        else ⟨.Unhandled, st1, 2, 0, 0⟩
      | _ => ⟨.Unhandled, st1, 2, 0, 0⟩
  | _ => ⟨.Unhandled, st, 1, 0, 0⟩

/-- Lines 192-198 of `resolve`: the stale-cache-entry continuation — collect
the missing hint when the cached path no longer exists (skipping it if the
check raises), drop the entry, and proceed to the scan. -/
def resolveStale (env : Env) (fullname root : String) (policy : Policy)
    (excl : List String) (maxf : Nat) (managed : Bool)
    (roots_cmp : List String) (cached : CacheEntry) (st : RState) : RResult :=
  let missing_hints :=
    match env.fsexists cached.candidate.path with
    | some false => [cached.candidate.path]
    | _ => []
  let st1 := { st with cache := aerase st.cache fullname }
  let r := resolveScan env fullname root policy excl maxf managed roots_cmp
    missing_hints st1
  { r with cacheWrites := r.cacheWrites + 1 }

/-- Model of `zmfh.resolver.resolve.resolve`. -/
def resolve (env : Env) (fullname root : String) (policy : Policy)
    (excl : List String) (maxf : Nat) (path : Option (List String))
    (st : RState) : RResult :=
  if env.is_supported_fullname fullname = false then ⟨.Unhandled, st, 0, 0, 0⟩
  else
    let d := env.decide fullname policy
    if d.handle = false then ⟨.Unhandled, st, 0, 0, 0⟩
    else
      let managed := d.managed
      let roots_cmp := (_rootsOf env policy root).2
      match env.python_find_spec fullname path with
      | some ps =>
        let st1 := _observe_python_spec env fullname ps roots_cmp st
        ⟨.Unhandled, st1, 0, 0, 0⟩
      | none =>
        if policy.cache_enabled then
          match alookup st.cache fullname with
          | some cached =>
            let (ok, fp) := env.verify_candidate cached.candidate
            if ok ∧ fp.isSome ∧ cached.fp = fp then
              match env.make_spec fullname cached.candidate with
              | some s =>
                let st1 :=
                  _observe_candidate env fullname cached.candidate roots_cmp st
                ⟨.Resolved fullname cached.candidate s managed, st1, 0, 1, 0⟩
              | none =>
                let r := resolveStale env fullname root policy excl maxf
                  managed roots_cmp cached st
                { r with cacheReads := r.cacheReads + 1 }
            else
              let r := resolveStale env fullname root policy excl maxf
                managed roots_cmp cached st
              { r with cacheReads := r.cacheReads + 1 }
          | none =>
            let r := resolveScan env fullname root policy excl maxf managed
              roots_cmp [] st
            { r with cacheReads := r.cacheReads + 1 }
        else
          resolveScan env fullname root policy excl maxf managed roots_cmp [] st

/-!
## Model of `zmfh.runtime.origins_cache`

A process-lifetime ledger of the last origin a name was observed at, with a
derived query `vanished_under_roots` powering deletion diagnostics.  `Path`
operations enter as an `OEnv` of abstract functions: `pathResolve` is
`Path.resolve()` (non-strict, total — it succeeds even when the path or a
containing root has been moved or deleted), `isRelativeTo a b` tells whether
`Path(a).relative_to(b)` succeeds (its `ValueError` on failure is the
exception the source's `except` swallows, modelled as `false`), `pexists` is
`Path.exists()` (total; errors surface as `false`), and `pathStr` is
`str(Path(·))` (pure-path normalization of the stored string).
-/

/-- Model of `zmfh.runtime.origins_cache.ZMFH_LastOrigin`. -/
structure ZMFH_LastOrigin where
  fullname : String
  path : String
deriving DecidableEq, Repr

/-- The `_LAST` module-level dict. -/
abbrev OriginsMap := List (String × ZMFH_LastOrigin)

/-- Model of `record`: ignores empty names and empty paths. -/
def origins_record (st : OriginsMap) (fullname path : String) : OriginsMap :=
  if fullname = "" ∨ path = "" then st
  else aput st fullname ⟨fullname, path⟩

/-- Model of `get`. -/
def origins_get (st : OriginsMap) (fullname : String) :
    Option ZMFH_LastOrigin :=
  alookup st fullname

/-- The `Path` operations used by `vanished_under_roots`. -/
structure OEnv where
  pathResolve : String → String
  isRelativeTo : String → String → Bool
  pexists : String → Bool
  pathStr : String → String

/-- The root loop of `vanished_under_roots`: return the stored path at the
first root it resolves under, provided it no longer exists; a failing
`relative_to` (or anything else raising inside the `try`) skips to the next
root. -/
def vanishLoop (env : OEnv) (p : String) : List String → Option String
  | [] => none
  | r :: rs =>
    if env.isRelativeTo (env.pathResolve p) (env.pathResolve r) then
      if env.pexists p = false then some (env.pathStr p)
      else vanishLoop env p rs
    else vanishLoop env p rs

/-- Model of `vanished_under_roots`. -/
def vanished_under_roots (env : OEnv) (st : OriginsMap) (fullname : String)
    (roots : List String) : Option String :=
  match origins_get st fullname with
  | none => none
  | some o => vanishLoop env o.path roots

/-! ## Outcome discriminators -/

/-- Whether an outcome is the `Resolved` variant. -/
def Outcome.isResolved : Outcome → Bool
  | .Resolved .. => true
  | _ => false

/-- Whether an outcome is the `Deleted` variant. -/
def Outcome.isDeleted : Outcome → Bool
  | .Deleted .. => true
  | _ => false

/-- Whether an outcome is the `Unhandled` sentinel. -/
def Outcome.isUnhandled : Outcome → Bool
  | .Unhandled => true
  | _ => false

/-! ## Concrete instantiations used to exercise the theorems -/

/-- A single-module candidate under the test root. -/
def tCand : Candidate := { kind := "module", path := "/r/foo.py" }

/-- A second candidate for the same name (ambiguity scenarios). -/
def tCand2 : Candidate :=
  { kind := "package", path := "/r/sub/foo/__init__.py",
    package_dir := some "/r/sub/foo" }

/-- The empty starting state. -/
def st0 : RState := { cache := [], observed := [], indexGen := 0 }

/-- A baseline environment: everything eligible, host cannot resolve, the
index is empty, the filesystem reports nothing as existing, path functions
are the identity (already-absolute POSIX paths). -/
def baseEnv : Env where
  is_supported_fullname := fun _ => true
  decide := fun _ _ => { handle := true, managed := true }
  python_find_spec := fun _ _ => none
  verify_candidate := fun _ => (true, some 7)
  make_spec := fun _ _ => some 1
  get_candidates := fun _ _ _ _ _ => []
  fsexists := fun _ => some false
  normAbs := fun p => p
  normCase := fun p => p
  dirname := fun _ => ""
  isAbs := fun _ => true

/-- Test policy: one managed root, caching on, deletion diagnostics on. -/
def tPolicy : Policy :=
  { roots := ["/r"], cache_enabled := true, raise_on_deleted := true }

/-- Test policy with caching and deletion diagnostics both off. -/
def tPolicyOff : Policy :=
  { roots := ["/r"], cache_enabled := false, raise_on_deleted := false }

/-- Environment where the host mechanism resolves the name. -/
def envHost : Env :=
  { baseEnv with python_find_spec := fun _ _ => some { origin := some "/elsewhere/foo.py" } }

/-- Environment with two on-disk candidates at every index generation. -/
def envAmb : Env :=
  { baseEnv with get_candidates := fun _ _ _ _ _ => [tCand, tCand2] }

/-- Environment where verification always fails (candidates vanish between
scan and check). -/
def envGone : Env :=
  { baseEnv with
      get_candidates := fun g _ _ _ _ => if g = 0 then [tCand] else [],
      verify_candidate := fun _ => (false, none) }

/-- State holding a valid cache entry for "foo". -/
def stCached : RState :=
  { cache := [("foo", { candidate := tCand, fp := some 7 })],
    observed := [], indexGen := 0 }

/-- State holding a cache entry whose stored fingerprint will mismatch. -/
def stStale : RState :=
  { cache := [("foo", { candidate := tCand, fp := some 3 })],
    observed := [], indexGen := 0 }

/-- Origins environment: identity path functions, a flat "is under" check,
nothing exists on disk. -/
def oEnv : OEnv where
  pathResolve := fun p => p
  isRelativeTo := fun p r => strStartsWith p r
  pexists := fun _ => false
  pathStr := fun p => p

/-- An origins ledger with one record. -/
def oSt : OriginsMap := origins_record [] "foo" "/r/foo.py"

/-! ## Theorems -/

/-- C1 (fail-open): for every name, root, policy, exclude set, file cap and
optional search path, whenever the host mechanism (`python_find_spec`)
returns a non-none spec for the name, `resolve` returns `Unhandled` — never
`Resolved` — no matter what candidates exist under the roots. -/
theorem resolve_fail_open (env : Env) (fullname root : String)
    (policy : Policy) (excl : List String) (maxf : Nat)
    (path : Option (List String)) (st : RState)
    (h : (env.python_find_spec fullname path).isSome = true) :
    (resolve env fullname root policy excl maxf path st).outcome =
      .Unhandled := by
  unfold resolve
  split
  · rfl
  · split
    · dsimp only
      split
      · rfl
      · rfl
    · rename_i heq
      rw [heq] at h
      simp at h

/-- Witness for C1 at a concrete environment where the host resolves. -/
theorem resolve_fail_open_witness :
    (envHost.python_find_spec "foo" none).isSome = true ∧
    (resolve envHost "foo" "/r" tPolicy [] 100 none st0).outcome =
      .Unhandled :=
  ⟨rfl, resolve_fail_open envHost "foo" "/r" tPolicy [] 100 none st0 rfl⟩

/-- C8 (totality and outcome exclusivity): `resolve` is a total function —
it terminates on every input without propagating an exception (the fallible
filesystem checks appear in the model as `Option Bool` and every `none`
branch is handled, mirroring the source's `try/except` around observation
and hint collection) — and its outcome is exactly one of `Resolved`,
`Deleted`, `Unhandled`. -/
theorem resolve_one_outcome (env : Env) (fullname root : String)
    (policy : Policy) (excl : List String) (maxf : Nat)
    (path : Option (List String)) (st : RState) :
    ((resolve env fullname root policy excl maxf path st).outcome.isResolved
        = true ∧
      (resolve env fullname root policy excl maxf path st).outcome.isDeleted
        = false ∧
      (resolve env fullname root policy excl maxf path st).outcome.isUnhandled
        = false) ∨
    ((resolve env fullname root policy excl maxf path st).outcome.isResolved
        = false ∧
      (resolve env fullname root policy excl maxf path st).outcome.isDeleted
        = true ∧
      (resolve env fullname root policy excl maxf path st).outcome.isUnhandled
        = false) ∨
    ((resolve env fullname root policy excl maxf path st).outcome.isResolved
        = false ∧
      (resolve env fullname root policy excl maxf path st).outcome.isDeleted
        = false ∧
      (resolve env fullname root policy excl maxf path st).outcome.isUnhandled
        = true) := by
  cases h : (resolve env fullname root policy excl maxf path st).outcome <;>
    simp [Outcome.isResolved, Outcome.isDeleted, Outcome.isUnhandled]

/-! ### Helper lemmas: which branches can produce `Deleted`, and the
cache-frame behaviour of each phase. -/

/-- The build-and-cache tail never produces `Deleted`. -/
theorem finishResolve_not_deleted (env : Env) (fullname : String)
    (policy : Policy) (managed : Bool) (roots_cmp : List String)
    (picked : Candidate) (fp : Option Fp) (st : RState) (scans : Nat) :
    (finishResolve env fullname policy managed roots_cmp picked fp st
      scans).outcome.isDeleted = false := by
  unfold finishResolve
  split <;> rfl

/-- Inversion for the scan phase: a `Deleted` outcome implies diagnostics
are enabled and the payload is a non-empty `_deleted_paths` computation over
some hint set. -/
theorem resolveScan_deleted_inv (env : Env) (fullname root : String)
    (policy : Policy) (excl : List String) (maxf : Nat) (managed : Bool)
    (roots_cmp : List String) (hints : List String) (st : RState)
    (fn : String) (ps : List String) (m : Bool)
    (h : (resolveScan env fullname root policy excl maxf managed roots_cmp
      hints st).outcome = .Deleted fn ps m) :
    policy.raise_on_deleted = true ∧ ps ≠ [] ∧
    ∃ hints2, ps = _deleted_paths env fullname roots_cmp hints2 st := by
  unfold resolveScan at h
  dsimp only at h
  split at h
  · -- no candidates at the first scan
    split at h
    case isTrue hr =>
      split at h
      case isTrue hv =>
        simp only [Outcome.Deleted.injEq] at h
        exact ⟨hr, h.2.1 ▸ hv, hints, h.2.1.symm⟩
      case isFalse _ => simp at h
    case isFalse hr => simp at h
  · -- exactly one candidate at the first scan
    rename_i picked heq1
    split at h
    case isTrue hok =>
      have hnd := finishResolve_not_deleted env fullname policy managed
        roots_cmp picked (env.verify_candidate picked).2 st 1
      rw [h] at hnd
      simp [Outcome.isDeleted] at hnd
    case isFalse hok =>
      split at h
      · -- no candidates after the retry
        split at h
        case isTrue hr =>
          split at h
          case isTrue hv =>
            simp only [Outcome.Deleted.injEq] at h
            exact ⟨hr, h.2.1 ▸ hv, hints, h.2.1.symm⟩
          case isFalse _ => simp at h
        case isFalse hr => simp at h
      · -- one candidate after the retry
        rename_i p2 heq2
        split at h
        case isTrue hok2 =>
          have hnd := finishResolve_not_deleted env fullname policy managed
            roots_cmp p2 (env.verify_candidate p2).2
            { st with indexGen := st.indexGen + 1 } 2
          rw [h] at hnd
          simp [Outcome.isDeleted] at hnd
        case isFalse hok2 =>
          split at h
          case isTrue hr =>
            split at h
            case isTrue hv =>
              simp only [Outcome.Deleted.injEq] at h
              exact ⟨hr, h.2.1 ▸ hv, hints ++ [p2.path], h.2.1.symm⟩
            case isFalse _ => simp at h
          case isFalse hr => simp at h
      · -- still ambiguous after the retry
        simp at h
  · -- ambiguous at the first scan
    simp at h

/-- Inversion for the stale-cache continuation. -/
theorem resolveStale_deleted_inv (env : Env) (fullname root : String)
    (policy : Policy) (excl : List String) (maxf : Nat) (managed : Bool)
    (roots_cmp : List String) (cached : CacheEntry) (st : RState)
    (fn : String) (ps : List String) (m : Bool)
    (h : (resolveStale env fullname root policy excl maxf managed roots_cmp
      cached st).outcome = .Deleted fn ps m) :
    policy.raise_on_deleted = true ∧ ps ≠ [] ∧
    ∃ hints2, ps = _deleted_paths env fullname roots_cmp hints2 st := by
  unfold resolveStale at h
  dsimp only at h
  obtain ⟨hr, hne, hints2, heq⟩ := resolveScan_deleted_inv env fullname root
    policy excl maxf managed roots_cmp _
    { st with cache := aerase st.cache fullname } fn ps m h
  exact ⟨hr, hne, hints2, heq⟩

/-- Inversion for `resolve`: a `Deleted` outcome implies diagnostics are
enabled and the payload is a non-empty `_deleted_paths` computation over the
managed-root comparison set. -/
theorem resolve_deleted_inv (env : Env) (fullname root : String)
    (policy : Policy) (excl : List String) (maxf : Nat)
    (path : Option (List String)) (st : RState)
    (fn : String) (ps : List String) (m : Bool)
    (h : (resolve env fullname root policy excl maxf path st).outcome =
      .Deleted fn ps m) :
    policy.raise_on_deleted = true ∧ ps ≠ [] ∧
    ∃ hints2, ps = _deleted_paths env fullname (_rootsOf env policy root).2
      hints2 st := by
  unfold resolve at h
  split at h
  · simp at h
  · split at h
    · -- host mechanism resolved
      dsimp only at h
      split at h <;> simp at h
    · -- host mechanism declined
      split at h
      · -- caching on
        split at h
        · -- cache entry present
          split at h
          rename_i ok fp heqv
          split at h
          · -- fresh entry
            split at h
            · dsimp only at h
              split at h <;> simp at h
            · -- spec build failed: stale continuation
              dsimp only at h
              split at h
              · simp at h
              · exact resolveStale_deleted_inv env fullname root policy excl
                  maxf _ _ _ st fn ps m h
          · -- stale entry
            dsimp only at h
            split at h
            · simp at h
            · exact resolveStale_deleted_inv env fullname root policy excl
                maxf _ _ _ st fn ps m h
        · -- no cache entry
          dsimp only at h
          split at h
          · simp at h
          · exact resolveScan_deleted_inv env fullname root policy excl maxf
              _ _ _ st fn ps m h
      · -- caching off
        dsimp only at h
        split at h
        · simp at h
        · exact resolveScan_deleted_inv env fullname root policy excl maxf
            _ _ _ st fn ps m h

/-- C4 (Deleted is gated by `raise_on_deleted`): with
`policy.raise_on_deleted = false`, `resolve` never returns a `Deleted`
outcome on any input; unresolvable names yield `Unhandled` instead. -/
theorem resolve_no_deleted_when_disabled (env : Env) (fullname root : String)
    (policy : Policy) (excl : List String) (maxf : Nat)
    (path : Option (List String)) (st : RState)
    (h : policy.raise_on_deleted = false) :
    (resolve env fullname root policy excl maxf path
      st).outcome.isDeleted = false := by
  cases hout : (resolve env fullname root policy excl maxf path st).outcome
  case Resolved => rfl
  case Unhandled => rfl
  case Deleted fn ps m =>
    obtain ⟨hr, -, -⟩ := resolve_deleted_inv env fullname root policy excl
      maxf path st fn ps m hout
    rw [h] at hr
    cases hr

/-- Witness for C4: a name whose candidate vanished, diagnostics disabled. -/
theorem resolve_no_deleted_when_disabled_witness :
    tPolicyOff.raise_on_deleted = false ∧
    (resolve envGone "foo" "/r" tPolicyOff [] 100 none
      st0).outcome.isDeleted = false :=
  ⟨rfl, resolve_no_deleted_when_disabled envGone "foo" "/r" tPolicyOff [] 100
    none st0 rfl⟩

/-- The helper `_observe_candidate` never touches the resolution cache. -/
theorem _observe_candidate_cache (env : Env) (fn : String) (c : Candidate)
    (rc : List String) (st : RState) :
    (_observe_candidate env fn c rc st).cache = st.cache := by
  unfold _observe_candidate
  dsimp only
  split <;> rfl

/-- The helper `_observe_python_spec` never touches the resolution cache. -/
theorem _observe_python_spec_cache (env : Env) (fn : String) (ps : PySpec)
    (rc : List String) (st : RState) :
    (_observe_python_spec env fn ps rc st).cache = st.cache := by
  unfold _observe_python_spec
  repeat'
    first
      | rfl
      | dsimp only
      | split

/-- With caching off, the build tail leaves the cache untouched and performs
no cache operation. -/
theorem finishResolve_cache_frame (env : Env) (fullname : String)
    (policy : Policy) (managed : Bool) (roots_cmp : List String)
    (picked : Candidate) (fp : Option Fp) (st : RState) (scans : Nat)
    (h : policy.cache_enabled = false) :
    (finishResolve env fullname policy managed roots_cmp picked fp st
        scans).state.cache = st.cache ∧
    (finishResolve env fullname policy managed roots_cmp picked fp st
        scans).cacheReads = 0 ∧
    (finishResolve env fullname policy managed roots_cmp picked fp st
        scans).cacheWrites = 0 := by
  unfold finishResolve
  split
  · exact ⟨rfl, rfl, rfl⟩
  · simp [h, _observe_candidate_cache]

/-- With caching off, the scan phase leaves the cache untouched and performs
no cache operation. -/
theorem resolveScan_cache_frame (env : Env) (fullname root : String)
    (policy : Policy) (excl : List String) (maxf : Nat) (managed : Bool)
    (roots_cmp : List String) (hints : List String) (st : RState)
    (h : policy.cache_enabled = false) :
    (resolveScan env fullname root policy excl maxf managed roots_cmp hints
        st).state.cache = st.cache ∧
    (resolveScan env fullname root policy excl maxf managed roots_cmp hints
        st).cacheReads = 0 ∧
    (resolveScan env fullname root policy excl maxf managed roots_cmp hints
        st).cacheWrites = 0 := by
  unfold resolveScan
  repeat'
    first
      | exact finishResolve_cache_frame _ _ _ _ _ _ _ _ _ h
      | exact ⟨rfl, rfl, rfl⟩
      | dsimp only
      | split

/-- C6 (cache gating frame property): with `policy.cache_enabled = false`,
`resolve` performs no resolution-cache reads, writes, or drops, and the cache
state after the call equals the cache state before it, whatever the outcome. -/
theorem resolve_cache_frame (env : Env) (fullname root : String)
    (policy : Policy) (excl : List String) (maxf : Nat)
    (path : Option (List String)) (st : RState)
    (h : policy.cache_enabled = false) :
    (resolve env fullname root policy excl maxf path st).state.cache
        = st.cache ∧
    (resolve env fullname root policy excl maxf path st).cacheReads = 0 ∧
    (resolve env fullname root policy excl maxf path st).cacheWrites = 0 := by
  unfold resolve
  repeat'
    first
      | exact resolveScan_cache_frame _ _ _ _ _ _ _ _ _ _ h
      | exact ⟨_observe_python_spec_cache _ _ _ _ _, rfl, rfl⟩
      | exact ⟨rfl, rfl, rfl⟩
      | dsimp only
      | split
      | simp_all

/-- Every `_deleted_paths` result is sorted and duplicate-free, and each
member is an `os.path.abspath` image that lies under the comparison roots
and does not exist on disk at diagnosis time. -/
theorem _deleted_paths_spec (env : Env) (fn : String)
    (roots_cmp hints : List String) (st : RState) :
    List.Sorted (· ≤ ·) (_deleted_paths env fn roots_cmp hints st) ∧
    (_deleted_paths env fn roots_cmp hints st).Nodup ∧
    ∀ p ∈ _deleted_paths env fn roots_cmp hints st,
      (∃ q, p = env.normAbs q) ∧ _is_under_any env p roots_cmp = true ∧
      env.fsexists p = some false := by
  unfold _deleted_paths
  try dsimp only
  refine ⟨List.sorted_insertionSort _ _,
    ((List.perm_insertionSort _ _).nodup_iff).mpr (List.nodup_dedup _), ?_⟩
  intro p hp
  rw [List.mem_insertionSort, List.mem_dedup, List.mem_append] at hp
  cases hp with
  | inl hp =>
    rw [List.mem_filterMap] at hp
    obtain ⟨q, hq, hf⟩ := hp
    try dsimp only at hf
    split at hf
    case isTrue hcond =>
      injection hf with hf
      subst hf
      exact ⟨⟨q, rfl⟩, hcond.1, hcond.2⟩
    case isFalse _ => cases hf
  | inr hp =>
    cases halo : alookup st.observed fn with
    | none => rw [halo] at hp; cases hp
    | some obs =>
      rw [halo] at hp
      try dsimp only at hp
      split at hp
      case isTrue hcond =>
        rcases List.mem_singleton.mp hp with h
        subst h
        exact ⟨⟨obs.candidate.path, rfl⟩, hcond.1, hcond.2⟩
      case isFalse _ => cases hp

/-- C5 (Deleted payload well-formedness): whenever `resolve` returns
`Deleted`, `last_known_paths` is a non-empty, sorted, duplicate-free list of
absolute paths, each lying under one of the policy's managed roots (in the
code's case-normalized comparison sense) and missing from disk at diagnosis
time.  Absoluteness is relative to the assumption that `os.path.abspath`
returns absolute paths. -/
theorem resolve_deleted_payload (env : Env) (fullname root : String)
    (policy : Policy) (excl : List String) (maxf : Nat)
    (path : Option (List String)) (st : RState)
    (fn : String) (ps : List String) (m : Bool)
    (hAbs : ∀ q, env.isAbs (env.normAbs q) = true)
    (h : (resolve env fullname root policy excl maxf path st).outcome =
      .Deleted fn ps m) :
    ps ≠ [] ∧ List.Sorted (· ≤ ·) ps ∧ ps.Nodup ∧
    ∀ p ∈ ps, env.isAbs p = true ∧
      _is_under_any env p (_rootsOf env policy root).2 = true ∧
      env.fsexists p = some false := by
  obtain ⟨-, hne, hints2, hps⟩ := resolve_deleted_inv env fullname root
    policy excl maxf path st fn ps m h
  obtain ⟨hsort, hnodup, hmem⟩ := _deleted_paths_spec env fullname
    (_rootsOf env policy root).2 hints2 st
  subst hps
  refine ⟨hne, hsort, hnodup, ?_⟩
  intro p hp
  obtain ⟨⟨q, hq⟩, hunder, hex⟩ := hmem p hp
  exact ⟨hq ▸ hAbs q, hunder, hex⟩

/-- Witness for C5: a deleted module observed under the root. -/
theorem resolve_deleted_payload_witness :
    (∀ q, envGone.isAbs (envGone.normAbs q) = true) ∧
    (resolve envGone "foo" "/r" tPolicy [] 100 none
        { cache := [], observed := [("foo", { candidate := tCand })],
          indexGen := 0 }).outcome =
      .Deleted "foo" ["/r/foo.py"] true ∧
    (["/r/foo.py"] ≠ ([] : List String) ∧
      List.Sorted (· ≤ ·) ["/r/foo.py"] ∧ (["/r/foo.py"] : List String).Nodup ∧
      ∀ p ∈ (["/r/foo.py"] : List String), envGone.isAbs p = true ∧
        _is_under_any envGone p (_rootsOf envGone tPolicy "/r").2 = true ∧
        envGone.fsexists p = some false) :=
  ⟨fun _ => rfl, by decide,
    resolve_deleted_payload envGone "foo" "/r" tPolicy [] 100 none
      { cache := [], observed := [("foo", { candidate := tCand })],
        indexGen := 0 }
      "foo" ["/r/foo.py"] true (fun _ => rfl) (by decide)⟩

/-- Witness for C6: the state's cache is unchanged with caching off. -/
theorem resolve_cache_frame_witness :
    tPolicyOff.cache_enabled = false ∧
    ((resolve envGone "foo" "/r" tPolicyOff [] 100 none st0).state.cache
        = st0.cache ∧
      (resolve envGone "foo" "/r" tPolicyOff [] 100 none st0).cacheReads
        = 0 ∧
      (resolve envGone "foo" "/r" tPolicyOff [] 100 none st0).cacheWrites
        = 0) :=
  ⟨rfl, resolve_cache_frame envGone "foo" "/r" tPolicyOff [] 100 none st0 rfl⟩


/-- C3 (cache hit correctness): with caching enabled, the host unable to
resolve, a cache entry `(C, fp)` present, the verifier reporting `C` valid
with fingerprint equal to the stored `fp`, and the descriptor builder
succeeding on `C`, `resolve` returns `Resolved` with candidate `C` and
performs no candidate-index consultation (zero scans). -/
theorem resolve_cache_hit (env : Env) (fullname root : String)
    (policy : Policy) (excl : List String) (maxf : Nat)
    (path : Option (List String)) (st : RState)
    (C : Candidate) (v : Fp) (s : ModSpec)
    (h1 : env.is_supported_fullname fullname = true)
    (h2 : (env.decide fullname policy).handle = true)
    (h3 : env.python_find_spec fullname path = none)
    (h4 : policy.cache_enabled = true)
    (h5 : alookup st.cache fullname = some { candidate := C, fp := some v })
    (h6 : env.verify_candidate C = (true, some v))
    (h7 : env.make_spec fullname C = some s) :
    (resolve env fullname root policy excl maxf path st).outcome =
      .Resolved fullname C s (env.decide fullname policy).managed ∧
    (resolve env fullname root policy excl maxf path st).scans = 0 := by
  unfold resolve
  simp [h1, h2, h3, h4, h5, h6, h7]

/-- Witness for C3 at a concrete cached state. -/
theorem resolve_cache_hit_witness :
    (baseEnv.is_supported_fullname "foo" = true ∧
      (baseEnv.decide "foo" tPolicy).handle = true ∧
      baseEnv.python_find_spec "foo" none = none ∧
      tPolicy.cache_enabled = true ∧
      alookup stCached.cache "foo" =
        some { candidate := tCand, fp := some 7 } ∧
      baseEnv.verify_candidate tCand = (true, some 7) ∧
      baseEnv.make_spec "foo" tCand = some 1) ∧
    ((resolve baseEnv "foo" "/r" tPolicy [] 100 none stCached).outcome =
        .Resolved "foo" tCand 1 (baseEnv.decide "foo" tPolicy).managed ∧
      (resolve baseEnv "foo" "/r" tPolicy [] 100 none stCached).scans = 0) :=
  ⟨⟨rfl, rfl, rfl, rfl, rfl, rfl, rfl⟩,
    resolve_cache_hit baseEnv "foo" "/r" tPolicy [] 100 none stCached
      tCand 7 1 rfl rfl rfl rfl rfl rfl rfl⟩


/-- Dropping a key removes it from the association list. -/
theorem alookup_aerase {α : Type} (m : List (String × α)) (k : String) :
    alookup (aerase m k) k = none := by
  induction m with
  | nil => rfl
  | cons hd tl ih =>
    obtain ⟨k1, v1⟩ := hd
    by_cases h : k1 = k
    · simpa [aerase, List.filter, h] using ih
    · simpa [aerase, List.filter, alookup, h] using ih

/-- C10 (stale treatment of a fingerprint-less verification): on a cache
lookup where the verifier reports the cached candidate valid but yields a
`none` fingerprint, or one different from the stored fingerprint, the cached
result is never served: the entry is dropped, the cached path becomes a
missing hint exactly when it no longer exists on disk, and resolution
proceeds to the index scan on the dropped state. -/
theorem resolve_stale_fingerprint (env : Env) (fullname root : String)
    (policy : Policy) (excl : List String) (maxf : Nat)
    (path : Option (List String)) (st : RState)
    (cached : CacheEntry) (fpv : Option Fp)
    (h1 : env.is_supported_fullname fullname = true)
    (h2 : (env.decide fullname policy).handle = true)
    (h3 : env.python_find_spec fullname path = none)
    (h4 : policy.cache_enabled = true)
    (h5 : alookup st.cache fullname = some cached)
    (h6 : env.verify_candidate cached.candidate = (true, fpv))
    (h7 : fpv = none ∨ cached.fp ≠ fpv) :
    alookup (aerase st.cache fullname) fullname = none ∧
    resolve env fullname root policy excl maxf path st =
      (let rs := resolveScan env fullname root policy excl maxf
          (env.decide fullname policy).managed (_rootsOf env policy root).2
          (if env.fsexists cached.candidate.path = some false
            then [cached.candidate.path] else [])
          { st with cache := aerase st.cache fullname }
       { rs with cacheReads := rs.cacheReads + 1,
                 cacheWrites := rs.cacheWrites + 1 }) := by
  refine ⟨alookup_aerase st.cache fullname, ?_⟩
  unfold resolve
  have hcond : ¬(fpv.isSome = true ∧ cached.fp = fpv) := by
    rcases h7 with h7 | h7
    · subst h7
      intro hc
      simp at hc
    · intro hc
      exact h7 hc.2
  simp only [h1, h2, h3, h4, h5, h6]
  simp [hcond]
  unfold resolveStale
  cases hex : env.fsexists cached.candidate.path with
  | none => simp [hex]
  | some b => cases b <;> simp [hex]

/-- Witness for C10: a stored fingerprint that no longer matches. -/
theorem resolve_stale_fingerprint_witness :
    (baseEnv.verify_candidate tCand = (true, some 7) ∧
      alookup stStale.cache "foo" =
        some { candidate := tCand, fp := some 3 } ∧
      (({ candidate := tCand, fp := some 3 } : CacheEntry).fp
        ≠ some 7)) ∧
    (alookup (aerase stStale.cache "foo") "foo" = none ∧
      resolve baseEnv "foo" "/r" tPolicy [] 100 none stStale =
        (let rs := resolveScan baseEnv "foo" "/r" tPolicy [] 100
            (baseEnv.decide "foo" tPolicy).managed
            (_rootsOf baseEnv tPolicy "/r").2
            (if baseEnv.fsexists tCand.path = some false
              then [tCand.path] else [])
            { stStale with cache := aerase stStale.cache "foo" }
         { rs with cacheReads := rs.cacheReads + 1,
                   cacheWrites := rs.cacheWrites + 1 })) :=
  ⟨⟨rfl, rfl, by decide⟩,
    resolve_stale_fingerprint baseEnv "foo" "/r" tPolicy [] 100 none stStale
      { candidate := tCand, fp := some 3 } (some 7)
      rfl rfl rfl rfl rfl rfl (Or.inr (by decide))⟩


/-- The build tail reports exactly the scan count it is given. -/
theorem finishResolve_scans (env : Env) (fullname : String) (policy : Policy)
    (managed : Bool) (roots_cmp : List String) (picked : Candidate)
    (fp : Option Fp) (st : RState) (scans : Nat) :
    (finishResolve env fullname policy managed roots_cmp picked fp st
      scans).scans = scans := by
  unfold finishResolve
  split <;> rfl

/-- An ambiguous first scan makes the scan phase return `Unhandled`
immediately. -/
theorem resolveScan_first_ambiguous (env : Env) (fullname root : String)
    (policy : Policy) (excl : List String) (maxf : Nat) (managed : Bool)
    (roots_cmp : List String) (hints : List String) (st : RState)
    (h : 2 ≤ (env.get_candidates st.indexGen root excl maxf
      fullname).length) :
    resolveScan env fullname root policy excl maxf managed roots_cmp hints st
      = ⟨.Unhandled, st, 1, 0, 0⟩ := by
  unfold resolveScan
  split
  · rename_i heq
    rw [heq] at h
    simp at h
  · rename_i picked heq
    rw [heq] at h
    simp at h
  · rfl

/-- A scan count of 2 means the first scan found exactly one candidate and
its verification failed. -/
theorem resolveScan_scans_two (env : Env) (fullname root : String)
    (policy : Policy) (excl : List String) (maxf : Nat) (managed : Bool)
    (roots_cmp : List String) (hints : List String) (st : RState)
    (hs : (resolveScan env fullname root policy excl maxf managed roots_cmp
      hints st).scans = 2) :
    ∃ picked, env.get_candidates st.indexGen root excl maxf fullname =
      [picked] ∧ (env.verify_candidate picked).1 = false := by
  unfold resolveScan at hs
  try dsimp only at hs
  split at hs
  · split at hs
    · split at hs <;> simp at hs
    · simp at hs
  · rename_i picked heq
    split at hs
    case isTrue hok =>
      rw [finishResolve_scans] at hs
      simp at hs
    case isFalse hok =>
      exact ⟨picked, heq, by simpa using hok⟩
  · simp at hs

/-- An ambiguous rescan, after a single failing candidate, makes the scan
phase return `Unhandled`. -/
theorem resolveScan_retry_ambiguous (env : Env) (fullname root : String)
    (policy : Policy) (excl : List String) (maxf : Nat) (managed : Bool)
    (roots_cmp : List String) (hints : List String) (st : RState)
    (picked : Candidate)
    (h1 : env.get_candidates st.indexGen root excl maxf fullname = [picked])
    (h2 : (env.verify_candidate picked).1 = false)
    (h3 : 2 ≤ (env.get_candidates (st.indexGen + 1) root excl maxf
      fullname).length) :
    resolveScan env fullname root policy excl maxf managed roots_cmp hints st
      = ⟨.Unhandled, { st with indexGen := st.indexGen + 1 }, 2, 0, 0⟩ := by
  unfold resolveScan
  simp only [h1]
  rw [if_neg (by simp [h2])]
  try dsimp only
  split
  · rename_i heq
    rw [heq] at h3
    simp at h3
  · rename_i p2 heq
    rw [heq] at h3
    simp at h3
  · rfl

/-- The function `resolve` either performs no scan, or behaves as the scan phase run at
the entry index generation (with some hint set and a cache-compatible
state). -/
theorem resolve_scan_cases (env : Env) (fullname root : String)
    (policy : Policy) (excl : List String) (maxf : Nat)
    (path : Option (List String)) (st : RState) :
    (resolve env fullname root policy excl maxf path st).scans = 0 ∨
    ∃ hints2 stx, stx.indexGen = st.indexGen ∧
      (resolve env fullname root policy excl maxf path st).outcome =
        (resolveScan env fullname root policy excl maxf
          (env.decide fullname policy).managed (_rootsOf env policy root).2
          hints2 stx).outcome ∧
      (resolve env fullname root policy excl maxf path st).scans =
        (resolveScan env fullname root policy excl maxf
          (env.decide fullname policy).managed (_rootsOf env policy root).2
          hints2 stx).scans := by
  unfold resolve
  repeat'
    first
      | exact Or.inl rfl
      | exact Or.inr ⟨[], st, rfl, rfl, rfl⟩
      | exact Or.inr ⟨_, { st with cache := aerase st.cache fullname },
          rfl, rfl, rfl⟩
      | dsimp only
      | split

/-- C2 (ambiguity safety): whenever the candidate index is actually
consulted and returns two or more candidates for the name — at the first
scan, or at the one retry — `resolve` returns `Unhandled`, never
`Resolved`. -/
theorem resolve_ambiguity_safe (env : Env) (fullname root : String)
    (policy : Policy) (excl : List String) (maxf : Nat)
    (path : Option (List String)) (st : RState)
    (h : (1 ≤ (resolve env fullname root policy excl maxf path st).scans ∧
        2 ≤ (env.get_candidates st.indexGen root excl maxf
          fullname).length) ∨
      ((resolve env fullname root policy excl maxf path st).scans = 2 ∧
        2 ≤ (env.get_candidates (st.indexGen + 1) root excl maxf
          fullname).length)) :
    (resolve env fullname root policy excl maxf path st).outcome =
      .Unhandled := by
  rcases resolve_scan_cases env fullname root policy excl maxf path st with
    h0 | ⟨hints2, stx, hIdx, hout, hscans⟩
  · rcases h with ⟨h1, -⟩ | ⟨h1, -⟩ <;> rw [h0] at h1 <;> simp at h1
  · rw [hout]
    rcases h with ⟨-, h2⟩ | ⟨h1, h2⟩
    · rw [resolveScan_first_ambiguous env fullname root policy excl maxf
        (env.decide fullname policy).managed (_rootsOf env policy root).2
        hints2 stx (by rw [hIdx]; exact h2)]
    · rw [hscans] at h1
      obtain ⟨picked, hp1, hp2⟩ := resolveScan_scans_two env fullname root
        policy excl maxf (env.decide fullname policy).managed
        (_rootsOf env policy root).2 hints2 stx h1
      rw [resolveScan_retry_ambiguous env fullname root policy excl maxf
        (env.decide fullname policy).managed (_rootsOf env policy root).2
        hints2 stx picked hp1 hp2 (by rw [hIdx]; exact h2)]

/-- Witness for C2: two on-disk candidates for the same name. -/
theorem resolve_ambiguity_safe_witness :
    (1 ≤ (resolve envAmb "foo" "/r" tPolicy [] 100 none st0).scans ∧
      2 ≤ (envAmb.get_candidates st0.indexGen "/r" [] 100 "foo").length) ∧
    (resolve envAmb "foo" "/r" tPolicy [] 100 none st0).outcome =
      .Unhandled :=
  ⟨⟨by decide, by decide⟩,
    resolve_ambiguity_safe envAmb "foo" "/r" tPolicy [] 100 none st0
      (Or.inl ⟨by decide, by decide⟩)⟩


/-- C7 counterexample: a single candidate that fails verification, a rescan
that finds nothing, `raise_on_deleted` on, and a first-candidate path that
lies under the root and is missing from disk.  The claim says the deletion
diagnosis runs over a hint set that includes the first candidate's path —
that set is non-empty here (third conjunct), so the claimed behaviour would
be a `Deleted` outcome; the code returns `Unhandled` (first conjunct),
because this branch passes only the pre-scan hints to `_deleted_paths`. -/
theorem resolveScan_retry_empty_counterexample :
    (resolve envGone "foo" "/r" tPolicy [] 100 none st0).outcome =
      .Unhandled ∧
    tPolicy.raise_on_deleted = true ∧
    _deleted_paths envGone "foo" (_rootsOf envGone tPolicy "/r").2
      [tCand.path] st0 = ["/r/foo.py"] := by
  refine ⟨?_, rfl, ?_⟩ <;> decide

/-- C7 as amended: when the single scanned candidate fails verification the
index is invalidated and rescanned once, and if the rescan yields zero
candidates the deletion diagnosis is computed over the missing hints
accumulated before the scan (any stale-cache hint plus the Observed Record)
— the first candidate's path is not added to the hint set. -/
theorem resolveScan_retry_empty (env : Env) (fullname root : String)
    (policy : Policy) (excl : List String) (maxf : Nat) (managed : Bool)
    (roots_cmp : List String) (hints : List String) (st : RState)
    (c1 : Candidate)
    (h1 : env.get_candidates st.indexGen root excl maxf fullname = [c1])
    (h2 : (env.verify_candidate c1).1 = false)
    (h3 : env.get_candidates (st.indexGen + 1) root excl maxf fullname = [])
    (h4 : policy.raise_on_deleted = true) :
    resolveScan env fullname root policy excl maxf managed roots_cmp hints st
      = (let v := _deleted_paths env fullname roots_cmp hints
          { st with indexGen := st.indexGen + 1 }
         if v ≠ [] then
          ⟨.Deleted fullname v managed,
            { st with indexGen := st.indexGen + 1 }, 2, 0, 0⟩
         else
          ⟨.Unhandled, { st with indexGen := st.indexGen + 1 }, 2, 0, 0⟩) := by
  unfold resolveScan
  simp only [h1]
  rw [if_neg (by simp [h2])]
  simp only [h3, h4]
  rw [if_pos trivial]

/-- Witness for the amended C7 at a concrete vanished candidate. -/
theorem resolveScan_retry_empty_witness :
    (envGone.get_candidates st0.indexGen "/r" [] 100 "foo" = [tCand] ∧
      (envGone.verify_candidate tCand).1 = false ∧
      envGone.get_candidates (st0.indexGen + 1) "/r" [] 100 "foo" = [] ∧
      tPolicy.raise_on_deleted = true) ∧
    resolveScan envGone "foo" "/r" tPolicy [] 100 true ["/r"] [] st0
      = (let v := _deleted_paths envGone "foo" ["/r"] []
          { st0 with indexGen := st0.indexGen + 1 }
         if v ≠ [] then
          ⟨.Deleted "foo" v true, { st0 with indexGen := st0.indexGen + 1 },
            2, 0, 0⟩
         else
          ⟨.Unhandled, { st0 with indexGen := st0.indexGen + 1 },
            2, 0, 0⟩) :=
  ⟨⟨rfl, rfl, rfl, rfl⟩,
    resolveScan_retry_empty envGone "foo" "/r" tPolicy [] 100 true ["/r"]
      [] st0 tCand rfl rfl rfl rfl⟩

/-- The root loop of `vanished_under_roots` finds the stored path as soon as
some root contains it (in the `relative_to` sense) and the path no longer
exists; roots it does not fall under — including roots whose resolution
changed because the root itself moved or vanished — are skipped, not
errors. -/
theorem vanishLoop_found (env : OEnv) (p : String) (roots : List String)
    (hex : env.pexists p = false)
    (hr : ∃ r ∈ roots, env.isRelativeTo (env.pathResolve p)
      (env.pathResolve r) = true) :
    vanishLoop env p roots = some (env.pathStr p) := by
  induction roots with
  | nil =>
    obtain ⟨r, hrm, -⟩ := hr
    cases hrm
  | cons a rs ih =>
    unfold vanishLoop
    by_cases ha : env.isRelativeTo (env.pathResolve p) (env.pathResolve a)
      = true
    · simp [ha, hex]
    · simp only [ha, if_false, Bool.false_eq_true]
      apply ih
      obtain ⟨r, hrm, hrel⟩ := hr
      rcases List.mem_cons.mp hrm with hra | hrt
      · exact absurd (hra ▸ hrel) ha
      · exact ⟨r, hrt, hrel⟩

/-- C9 (Origin Ledger derived query robustness): `vanished_under_roots` is a
total function of its inputs (it never raises; a failing `relative_to` — and
any other error inside the per-root `try` — selects the next root), and if
the last-observed path for the name falls under one of the given roots and
no longer exists on disk, it returns that path (as rendered by
`str(Path(...))`).  Nothing requires the root itself to still exist: a moved
or deleted root merely changes what it resolves to, and a missing stored
path is then reported, not an error. -/
theorem vanished_under_roots_found (env : OEnv) (st : OriginsMap)
    (fullname : String) (roots : List String) (o : ZMFH_LastOrigin)
    (hget : origins_get st fullname = some o)
    (hex : env.pexists o.path = false)
    (hr : ∃ r ∈ roots, env.isRelativeTo (env.pathResolve o.path)
      (env.pathResolve r) = true) :
    vanished_under_roots env st fullname roots = some (env.pathStr o.path)
    := by
  unfold vanished_under_roots
  rw [hget]
  exact vanishLoop_found env o.path roots hex hr

/-- Witness for C9: a recorded origin under a root that no longer exists. -/
theorem vanished_under_roots_found_witness :
    (origins_get oSt "foo" = some ⟨"foo", "/r/foo.py"⟩ ∧
      oEnv.pexists "/r/foo.py" = false ∧
      ("/r" ∈ ["/r", "/other"] ∧
        oEnv.isRelativeTo (oEnv.pathResolve "/r/foo.py")
          (oEnv.pathResolve "/r") = true)) ∧
    vanished_under_roots oEnv oSt "foo" ["/r", "/other"] =
      some (oEnv.pathStr "/r/foo.py") :=
  ⟨⟨rfl, rfl, by decide, rfl⟩,
    vanished_under_roots_found oEnv oSt "foo" ["/r", "/other"]
      ⟨"foo", "/r/foo.py"⟩ rfl rfl
      ⟨"/r", by decide, rfl⟩⟩

end Zmfh
